import Mathlib

/-!
Shallow embedding of the per-turn decision engine of `src/oopway.py`
(a bot for a turn-based 3D space-combat game), together with proofs
checking the natural-language specification against it.

Conventions of the embedding:
* Python `int` is Lean `Int` (Python integers are unbounded).
* Python runtime errors (`TypeError`, `IndexError`, `ValueError`, `KeyError`)
  are modelled by the `Except PyErr` monad: where the Python code would raise,
  the embedded function returns `.error`.
* The module-level mutable globals `targets` (dict from own-ship id to the
  stored target Ship object) and `taken` (set of opponent ids) are threaded
  explicitly as a `BotState`; the dict is an association list and the set a
  duplicate-free list.
-/

/-- `Vector` of oopway.py (named `Vec` here to avoid clashing with the library
`Vector`): three integer coordinates. -/
structure Vec where
  X : Int
  Y : Int
  Z : Int
deriving DecidableEq, Repr

instance : Add Vec := ⟨fun a b => ⟨a.X + b.X, a.Y + b.Y, a.Z + b.Z⟩⟩

instance : Sub Vec := ⟨fun a b => ⟨a.X - b.X, a.Y - b.Y, a.Z - b.Z⟩⟩

/-- `Vector.__abs__` / `clen`: `max([abs(X), abs(Y), abs(Z)])`, the Chebyshev
norm. -/
def Vec.clen (v : Vec) : Int :=
  max |v.X| (max |v.Y| |v.Z|)

/-- `EnergyBlock` equipment variant. -/
structure EnergyBlock where
  Name : String
  IncrementPerTurn : Int
  MaxEnergy : Int
  StartEnergy : Int
deriving DecidableEq, Repr

/-- `GunBlock` equipment variant (the `EffectType` tag carries no data used by
the decision logic and is omitted). -/
structure GunBlock where
  Name : String
  Damage : Int
  EnergyPrice : Int
  Radius : Int
deriving DecidableEq, Repr

/-- `EngineBlock` equipment variant. -/
structure EngineBlock where
  Name : String
  MaxAccelerate : Int
deriving DecidableEq, Repr

/-- `HealthBlock` equipment variant. -/
structure HealthBlock where
  Name : String
  MaxHealth : Int
  StartHealth : Int
deriving DecidableEq, Repr

/-- The closed sum of equipment kinds; `isinstance(x, GunBlock)` style checks
become matches on the constructor. -/
inductive EquipmentBlock where
  | energy : EnergyBlock → EquipmentBlock
  | gun : GunBlock → EquipmentBlock
  | engine : EngineBlock → EquipmentBlock
  | health : HealthBlock → EquipmentBlock
deriving DecidableEq, Repr

/-- `Ship` of oopway.py. `Health` is `Optional[int]` in the source; battle
snapshots carry it for the opponents read by `shoot_nearest_enemy` (whose sort
over healths requires it), so it is modelled as required. `Energy` is unused by
the decision logic and kept optional. -/
structure Ship where
  Id : Int
  Position : Vec
  Velocity : Vec
  Energy : Option Int
  Health : Int
  Equipment : List EquipmentBlock
deriving DecidableEq, Repr

/-- `Ship.get_all_points`: the 8 corners of the unit cube anchored at
`Position`, in source order. -/
def Ship.get_all_points (s : Ship) : List Vec :=
  [s.Position,
   s.Position + ⟨1, 0, 0⟩,
   s.Position + ⟨0, 1, 0⟩,
   s.Position + ⟨0, 0, 1⟩,
   s.Position + ⟨1, 1, 0⟩,
   s.Position + ⟨0, 1, 1⟩,
   s.Position + ⟨1, 0, 1⟩,
   s.Position + ⟨1, 1, 1⟩]

/-- The three command shapes appended to `battle_output.UserCommands`. -/
inductive UserCommand where
  | MOVE : Int → Vec → UserCommand
  | ATTACK : Int → String → Vec → UserCommand
  | ACCELERATE : Int → Vec → UserCommand
deriving DecidableEq, Repr

/-- Python runtime errors raised by the embedded code paths. -/
inductive PyErr where
  | typeError
  | indexError
  | valueError
  | keyError
deriving DecidableEq, Repr

/-- Decidable equality for `Except`, so that concrete runs of the embedded
code can be checked by `decide`. -/
instance {ε α : Type} [DecidableEq ε] [DecidableEq α] : DecidableEq (Except ε α) := fun x y =>
  match x, y with
  | .error a, .error b =>
      if h : a = b then .isTrue (congrArg Except.error h)
      else .isFalse fun hc => h (Except.error.inj hc)
  | .ok a, .ok b =>
      if h : a = b then .isTrue (congrArg Except.ok h)
      else .isFalse fun hc => h (Except.ok.inj hc)
  | .error _, .ok _ => .isFalse fun hc => Except.noConfusion hc
  | .ok _, .error _ => .isFalse fun hc => Except.noConfusion hc

/-- Guns of a ship: `[x for x in ship.Equipment if isinstance(x, GunBlock)]`. -/
def gunsOf (s : Ship) : List GunBlock :=
  s.Equipment.filterMap fun b =>
    match b with
    | .gun g => some g
    | _ => none

/-- Engines of a ship: `[x for x in ship.Equipment if isinstance(x, EngineBlock)]`. -/
def enginesOf (s : Ship) : List EngineBlock :=
  s.Equipment.filterMap fun b =>
    match b with
    | .engine e => some e
    | _ => none

/-- Left fold keeping the first element whose key is minimal: the accumulator
is replaced exactly when the new element's key is strictly `lt`-below it. This
is how Python's `min(..., key=...)` scans, and also what
`sorted(..., key=...)[0]` returns (Python's sort is stable). -/
def minFold {α β : Type} (key : α → β) (lt : β → β → Bool) (b : α) : List α → α
  | [] => b
  | e :: xs => minFold key lt (if lt (key e) (key b) then e else b) xs

/-- Python `min(xs, key=key)` under the strict comparison `lt`; `none` on the
empty list (where Python raises `ValueError`). -/
def pyMinBy {α β : Type} (key : α → β) (lt : β → β → Bool) : List α → Option α
  | [] => none
  | x :: xs => some (minFold key lt x xs)

/-- Python comparison of `(bool, int)` tuples: lexicographic with
`False < True`. -/
def tupLt (a b : Bool × Int) : Bool :=
  (!a.1 && b.1) || (a.1 == b.1 && decide (a.2 < b.2))

/-- Strict comparison on `Int` used for Python's sort key in
`shoot_nearest_enemy`. -/
def intLt (a b : Int) : Bool :=
  decide (a < b)

/-- The key of the lambda `check_ships` at line 440:
`(enemy.Id in taken, abs(ship.Position - enemy.Position))`. -/
def check_ships (taken : List Int) (ship : Ship) (enemy : Ship) : Bool × Int :=
  (taken.contains enemy.Id, (ship.Position - enemy.Position).clen)

/-- Association-list lookup for the `targets` dict. -/
def lookupT : List (Int × Ship) → Int → Option Ship
  | [], _ => none
  | (k, v) :: rest, i => if k = i then some v else lookupT rest i

/-- Association-list update for `targets[ship.Id] = ...`. -/
def dictSet : List (Int × Ship) → Int → Ship → List (Int × Ship)
  | [], k, v => [(k, v)]
  | (k', v') :: rest, k, v =>
      if k' = k then (k, v) :: rest else (k', v') :: dictSet rest k v

/-- `taken.add(id)` on the set of claimed opponent ids, modelled as a
duplicate-free list. -/
def addTaken (taken : List Int) (i : Int) : List Int :=
  if taken.contains i then taken else taken ++ [i]

/-- The persistent module-level state: the `targets` dict (own-ship id ↦
stored target `Ship` object) and the `taken` set of opponent ids. -/
structure BotState where
  targets : List (Int × Ship)
  taken : List Int
deriving DecidableEq, Repr

/-- Line 439: `targets.get(ship.Id, -1) not in [enemy.Id for enemy in
battle_state.Opponent]`. The dict stores `Ship` objects, and a dataclass
instance never compares equal to an `int` id, so when an entry exists the
membership test is vacuously false and the condition holds (the target is
reassigned every turn). When no entry exists the default `-1` is compared
against the ids. -/
def needsReassign (targets : List (Int × Ship)) (shipId : Int) (opp : List Ship) : Bool :=
  match lookupT targets shipId with
  | some _ => true
  | none => !(opp.any fun e => e.Id == -1)

/-- Lines 439–444: the target (re)assignment step for one own ship.
`min` of an empty opponent list raises `ValueError`; reading a missing dict
key raises `KeyError` (reachable only when no entry exists, no reassignment
fires because some opponent has id `-1`, and the dict is then indexed). After
assignment the chosen target's id is added to `taken`. -/
def assignTarget (st : BotState) (ship : Ship) (opp : List Ship) :
    Except PyErr (Ship × BotState) :=
  let targets1 : Except PyErr (List (Int × Ship)) :=
    if needsReassign st.targets ship.Id opp then
      match pyMinBy (check_ships st.taken ship) tupLt opp with
      | none => .error .valueError
      | some t => .ok (dictSet st.targets ship.Id t)
    else .ok st.targets
  match targets1 with
  | .error e => .error e
  | .ok ts =>
    match lookupT ts ship.Id with
    | none => .error .keyError
    | some target => .ok (target, ⟨ts, addTaken st.taken target.Id⟩)

/-- Lines 365–387: the octant-selected firing-port corner, chosen by the signs
of the components of `enemy.Position - ship.Position`. The four `if`/`elif`
branches are exhaustive, so the final case is the `X < 0 and Y < 0` branch. -/
def gun_pos_for (ship enemy : Ship) : Vec :=
  let ip := enemy.Position - ship.Position
  if ip.X ≥ 0 ∧ ip.Y ≥ 0 then
    (if ip.Z ≥ 0 then ship.Position + ⟨0, 0, 1⟩ else ship.Position)
  else if ip.X ≥ 0 ∧ ip.Y < 0 then
    (if ip.Z ≥ 0 then ship.Position + ⟨0, 1, 1⟩ else ship.Position + ⟨0, 1, 0⟩)
  else if ip.X < 0 ∧ ip.Y ≥ 0 then
    (if ip.Z ≥ 0 then ship.Position + ⟨1, 0, 1⟩ else ship.Position + ⟨1, 0, 0⟩)
  else
    (if ip.Z ≥ 0 then ship.Position + ⟨1, 1, 1⟩ else ship.Position + ⟨1, 1, 0⟩)

/-- Lines 388–394: scan an enemy's corners keeping `(min_distance, min_vector)`,
starting from `(1000000, None)`; a corner registers when it is inside the gun
radius and strictly closer than the current minimum. -/
def scan_points (R : Int) (gp : Vec) : List Vec → Int × Option Vec → Int × Option Vec
  | [], acc => acc
  | p :: ps, acc =>
      let d := (p - gp).clen
      scan_points R gp ps (if R ≥ d ∧ d < acc.1 then (d, some p) else acc)

/-- Lines 363–396: the `available` entry contributed by one enemy —
`(enemy.Health, min_vector)` when some corner registered, nothing otherwise. -/
def enemyEntry (R : Int) (ship enemy : Ship) : Option (Int × Vec) :=
  if (scan_points R (gun_pos_for ship enemy) enemy.get_all_points (1000000, none)).1 < 1000000
  then (scan_points R (gun_pos_for ship enemy) enemy.get_all_points (1000000, none)).2.map
    (fun v => (enemy.Health, v))
  else none

/-- Lines 355–404, `shoot_nearest_enemy`: with no gun or no reachable enemy
return no command; otherwise fire the first gun at the stored corner of the
reachable enemy with minimal health (`sorted(available, key=λx: x[0])[0]` is
the first minimal element since Python's sort is stable, embedded via
`pyMinBy`). -/
def shoot_nearest_enemy (ship : Ship) (opp : List Ship) : List UserCommand :=
  match gunsOf ship with
  | [] => []
  | gun :: _ =>
    let available := opp.filterMap (enemyEntry gun.Radius ship)
    match pyMinBy (fun p => p.1) intLt available with
    | none => []
    | some best => [UserCommand.ATTACK ship.Id gun.Name best.2]

/-- Lines 333–338, `adapt`: mirror a waypoint for team 1, identity otherwise
(`draft_options.MapSize` passed explicitly). -/
def adapt (mapSize team : Int) (vector : Vec) : Vec :=
  if team = 1 then ⟨mapSize - 2 - vector.X, mapSize - 2 - vector.Y, mapSize - 2 - vector.Z⟩
  else vector

/-- Lines 349–352, `make_simple_move`: append `MOVE(ship.Id, point)`; the
point is passed through unchanged (`adapt` is not called here or at any call
site of this function). -/
def make_simple_move (ship : Ship) (point : Vec) : UserCommand :=
  UserCommand.MOVE ship.Id point

/-- The runtime value held in `closest_point[0]`: initially the integer
`MapSize`; after the assignment `closest_point[0] = [dist, v2, v1]` at line
452 it is a Python list (the whole candidate triple). -/
inductive CPBest where
  | int : Int → CPBest
  | triple : Int → Vec → Vec → CPBest
deriving DecidableEq, Repr

/-- One iteration of the corner loop (lines 450–452): compute
`dist = abs(v2 - v1)` and evaluate `dist < closest_point[0]`. When
`closest_point[0]` already holds the list assigned at line 452, comparing an
`int` with a `list` raises `TypeError`. -/
def scanStep (cp0 : CPBest) (v1 v2 : Vec) : Except PyErr CPBest :=
  match cp0 with
  | .int n =>
      let d := (v2 - v1).clen
      .ok (if d < n then .triple d v2 v1 else .int n)
  | .triple _ _ _ => .error .typeError

/-- Lines 447–452: the nested corner loop over `my_positions × target_positions`
threading `closest_point[0]` (which starts as the integer `MapSize`). Elements
1 and 2 of `closest_point` are never written, so they are not threaded. -/
def cornerScan (myPts tgtPts : List Vec) (mapSize : Int) : Except PyErr CPBest :=
  myPts.foldlM (fun cp0 v1 => tgtPts.foldlM (fun c v2 => scanStep c v1 v2) cp0)
    (CPBest.int mapSize)

/-- Lines 489–494: clamp one axis of the escape vector to the engine's
`MaxAccelerate`, preserving sign. -/
def clampAxis (m c : Int) : Int :=
  if |c| > m then m * (if c > 0 then 1 else -1) else c

/-- The per-axis clamp applied to the whole escape vector. -/
def clampVec (m : Int) (v : Vec) : Vec :=
  ⟨clampAxis m v.X, clampAxis m v.Y, clampAxis m v.Z⟩

/-- Lines 438–508: the body of the `for ship in battle_state.My` loop for one
ship. `closest_point[1]` and `closest_point[2]` are never reassigned (line 452
writes only index 0), so wherever the source reads them they still hold
`target_positions[0] = target.Position` and `my_positions[0] = ship.Position`.
`engines[0]` is read before the `if not guns` check. In the branches guarded
by comparisons against `closest_point[0]`, a `.triple` value (a Python list)
makes the `int`/`list` comparison raise `TypeError`. -/
def processShip (mapSize : Int) (st : BotState) (ship : Ship) (opp : List Ship) :
    Except PyErr (List UserCommand × BotState) :=
  match assignTarget st ship opp with
  | .error e => .error e
  | .ok (target, st1) =>
    match cornerScan ship.get_all_points target.get_all_points mapSize with
    | .error e => .error e
    | .ok cp0 =>
      let cp1 := target.Position
      let cp2 := ship.Position
      match enginesOf ship with
      | [] => .error .indexError
      | engine :: _ =>
        match gunsOf ship with
        | [] => .ok ([make_simple_move ship cp1], st1)
        | gun :: guns1 =>
          match cp0 with
          | .triple _ _ _ => .error .typeError
          | .int d0 =>
            if gun.Radius < d0 then
              .ok (make_simple_move ship cp1 ::
                    (List.replicate (gun :: guns1).length
                      (shoot_nearest_enemy ship opp)).flatten, st1)
            else if gun.Radius = d0 then
              .ok (UserCommand.ACCELERATE ship.Id (Vec.mk 0 0 0 - ship.Velocity) ::
                    (List.range (gun :: guns1).length).map
                      (fun i => UserCommand.ATTACK ship.Id gun.Name
                        (cp1 + Vec.mk 0 0 (Int.ofNat i))), st1)
            else
              let ev := clampVec engine.MaxAccelerate (cp2 - cp1)
              let test := ship.Position + ev
              let acc :=
                if test.X ≤ mapSize ∧ test.Y ≤ mapSize ∧ test.Z ≤ mapSize then
                  ev - ship.Velocity
                else Vec.mk 0 0 0 - ev - ship.Velocity
              .ok (UserCommand.ACCELERATE ship.Id acc ::
                    (List.replicate (gun :: guns1).length
                      (shoot_nearest_enemy ship opp)).flatten, st1)

/-- Lines 431–512, `make_turn` (the source also binds `team =
draft_options.PlayerId`, which is never used, and manages a debug string,
which is not part of the decision logic): fold the per-ship processing over
`battle_state.My`, threading the persistent state and concatenating emitted
commands. An exception aborts the turn. -/
def make_turn (mapSize : Int) (st : BotState) (myShips opp : List Ship) :
    Except PyErr (List UserCommand × BotState) :=
  myShips.foldlM
    (fun acc ship =>
      match processShip mapSize acc.2 ship opp with
      | .error e => .error e
      | .ok (cmds, st2) => .ok (acc.1 ++ cmds, st2))
    ([], st)

/-- Own ship for the target-persistence scenario: gunless (so no branch on
`closest_point[0]` fires), with an engine, at the origin. -/
def c1ship : Ship := ⟨1, ⟨0, 0, 0⟩, ⟨0, 0, 0⟩, none, 100, [.engine ⟨"e", 2⟩]⟩

/-- Opponent id 7, the nearer one, present on both turns. -/
def c1oppA : Ship := ⟨7, ⟨40, 40, 40⟩, ⟨0, 0, 0⟩, none, 5, []⟩

/-- Opponent id 9, the farther one. -/
def c1oppB : Ship := ⟨9, ⟨50, 50, 50⟩, ⟨0, 0, 0⟩, none, 5, []⟩

/-- Shooter for the corner-scan scenario. -/
def c2ship : Ship := ⟨1, ⟨0, 0, 0⟩, ⟨0, 0, 0⟩, none, 100, [.gun ⟨"g", 10, 1, 5⟩, .engine ⟨"e", 2⟩]⟩

/-- Target for the corner-scan scenario, well inside the map. -/
def c2tgt : Ship := ⟨7, ⟨3, 3, 3⟩, ⟨0, 0, 0⟩, none, 10, []⟩

/-- Gunless ship of player 1 for the mirroring scenario. -/
def c3ship : Ship := ⟨1, ⟨0, 0, 0⟩, ⟨0, 0, 0⟩, none, 100, [.engine ⟨"e", 2⟩]⟩

/-- Opponent far enough that the corner scan never updates (all corner pairs
at Chebyshev distance at least the map size 30). -/
def c3opp : Ship := ⟨7, ⟨40, 40, 40⟩, ⟨0, 0, 0⟩, none, 5, []⟩

/-- Ship with a radius-5 gun for the too-far branch scenario. -/
def c4ship : Ship := ⟨1, ⟨0, 0, 0⟩, ⟨0, 0, 0⟩, none, 100, [.gun ⟨"g", 10, 1, 5⟩, .engine ⟨"e", 2⟩]⟩

/-- Opponent whose nearest corner pair is at distance 8 (beyond the radius-5
gun). -/
def c4opp : Ship := ⟨7, ⟨9, 0, 0⟩, ⟨0, 0, 0⟩, none, 10, []⟩

/-- Ship with a radius-5 gun for the at-range scenario. -/
def c5ship : Ship := ⟨1, ⟨0, 0, 0⟩, ⟨1, 1, 1⟩, none, 100, [.gun ⟨"g", 10, 1, 5⟩, .engine ⟨"e", 2⟩]⟩

/-- Opponent whose nearest corner pair is at distance exactly 5 (= the gun
radius). -/
def c5opp : Ship := ⟨7, ⟨6, 0, 0⟩, ⟨0, 0, 0⟩, none, 10, []⟩

/-- Ship with a radius-10 gun for the too-close scenario. -/
def c6ship : Ship := ⟨1, ⟨0, 0, 0⟩, ⟨1, 1, 1⟩, none, 100, [.gun ⟨"g", 10, 1, 10⟩, .engine ⟨"e", 2⟩]⟩

/-- Opponent whose nearest corner pair is at distance 2 (inside the radius-10
gun). -/
def c6opp : Ship := ⟨7, ⟨3, 3, 3⟩, ⟨0, 0, 0⟩, none, 10, []⟩

/-- Gunless ship (with an engine) for the no-gun scenario. -/
def c9ship : Ship := ⟨1, ⟨0, 0, 0⟩, ⟨0, 0, 0⟩, none, 100, [.engine ⟨"e", 2⟩]⟩

/-- Opponent in range of the gunless ship. -/
def c9opp : Ship := ⟨7, ⟨3, 3, 3⟩, ⟨0, 0, 0⟩, none, 10, []⟩

/-- Ship with no engine block (and no gun) for the engine-precondition
scenarios. -/
def c10ship : Ship := ⟨1, ⟨0, 0, 0⟩, ⟨0, 0, 0⟩, none, 100, []⟩

/-- Nearby opponent: the corner scan raises before `engines[0]` is read. -/
def c10oppNear : Ship := ⟨7, ⟨3, 3, 3⟩, ⟨0, 0, 0⟩, none, 10, []⟩

/-- Distant opponent: the corner scan completes, so `engines[0]` is reached. -/
def c10oppFar : Ship := ⟨7, ⟨40, 40, 40⟩, ⟨0, 0, 0⟩, none, 10, []⟩

/-- Witness for C7: ship 1 at the origin; opponent id 5 is nearer but already
taken, opponent id 9 is farther and untaken, so the untaken one is chosen. -/
def c7ship : Ship := ⟨1, ⟨0, 0, 0⟩, ⟨0, 0, 0⟩, none, 100, [.engine ⟨"e", 2⟩]⟩

/-- The taken nearer opponent for the C7 witness. -/
def c7oppA : Ship := ⟨5, ⟨2, 2, 2⟩, ⟨0, 0, 0⟩, none, 10, []⟩

/-- The untaken farther opponent for the C7 witness. -/
def c7oppB : Ship := ⟨9, ⟨10, 10, 10⟩, ⟨0, 0, 0⟩, none, 10, []⟩

/-- Ship with a radius-5 gun for the secondary-fire scenarios. -/
def c8ship : Ship := ⟨1, ⟨0, 0, 0⟩, ⟨0, 0, 0⟩, none, 100, [.gun ⟨"g", 10, 1, 5⟩, .engine ⟨"e", 2⟩]⟩

/-- Reachable opponent with the higher health. -/
def c8oppA : Ship := ⟨7, ⟨3, 0, 0⟩, ⟨0, 0, 0⟩, none, 10, []⟩

/-- Reachable opponent with the lower health. -/
def c8oppB : Ship := ⟨9, ⟨0, 4, 0⟩, ⟨0, 0, 0⟩, none, 3, []⟩

/-- Ship whose gun radius equals the scan's `1000000` sentinel. -/
def c8xship : Ship := ⟨1, ⟨0, 0, 0⟩, ⟨0, 0, 0⟩, none, 100, [.gun ⟨"g", 10, 1, 1000000⟩]⟩

/-- Opponent with a corner at distance exactly `1000000` from the firing
port: within the gun radius, yet filtered out by the scan's sentinel. -/
def c8xopp : Ship := ⟨7, ⟨1000000, 0, 0⟩, ⟨0, 0, 0⟩, none, 10, []⟩

/-- Claim C1: the spec says a remembered target whose id is still among this
turn's opponents is kept. The code stores the target `Ship` object in
`targets` but compares it against the list of integer opponent ids (line 439),
a comparison that is always false, so it reassigns every turn: with opponent
id 7 remembered and still present, the second turn switches ship 1 to
opponent id 9 (id 7 is now in `taken`, and untaken opponents are preferred),
and the emitted waypoint changes accordingly. -/
theorem C1_reassigns_every_turn :
    make_turn 30 ⟨[], []⟩ [c1ship] [c1oppA, c1oppB]
      = .ok ([UserCommand.MOVE 1 ⟨40, 40, 40⟩], ⟨[(1, c1oppA)], [7]⟩)
    ∧ make_turn 30 ⟨[(1, c1oppA)], [7]⟩ [c1ship] [c1oppA, c1oppB]
      = .ok ([UserCommand.MOVE 1 ⟨50, 50, 50⟩], ⟨[(1, c1oppB)], [7, 9]⟩)
    ∧ lookupT [(1, c1oppA)] 1 = some c1oppA
    ∧ c1oppA.Id = 7
    ∧ ([c1oppA, c1oppB].map Ship.Id).contains 7 = true
    ∧ c1oppB.Id = 9 := by
  decide

/-- Claim C2: the spec says the corner loop yields the triple minimizing the
Chebyshev distance over the 8×8 corner pairs. Line 452 writes the candidate
triple into `closest_point[0]` instead of replacing the whole list, so the
next iteration compares an `int` with a `list` and raises `TypeError`: for a
shooter at the origin and a target at `(3,3,3)` under map size 30 (some pair
is closer than 30, and it is not the final pair) the scan crashes and no
minimizing triple is ever produced. -/
theorem C2_corner_scan_crashes :
    cornerScan c2ship.get_all_points c2tgt.get_all_points 30 = .error .typeError
    ∧ (∃ v1 ∈ c2ship.get_all_points, ∃ v2 ∈ c2tgt.get_all_points, (v2 - v1).clen < 30) := by
  decide

/-- Claim C3 counterexample: with `PlayerId = 1` and map size 30, the gunless
ship's default-move waypoint is emitted as the unmirrored point `(40,40,40)`;
the mirror `(MapSize-2-X, ...)` of that point is `(-12,-12,-12)`, which is not
what is emitted — `adapt` is defined but never applied on this path (the
`team` variable of `make_turn` is unused). -/
theorem C3_mirroring_counterexample :
    processShip 30 ⟨[], []⟩ c3ship [c3opp]
      = .ok ([UserCommand.MOVE 1 ⟨40, 40, 40⟩], ⟨[(1, c3opp)], [7]⟩)
    ∧ adapt 30 1 ⟨40, 40, 40⟩ = ⟨-12, -12, -12⟩
    ∧ UserCommand.MOVE 1 (⟨40, 40, 40⟩ : Vec) ≠ UserCommand.MOVE 1 ⟨-12, -12, -12⟩ := by
  decide

/-- Claim C3 as amended: `adapt` computes the `(MapSize-2-X, MapSize-2-Y,
MapSize-2-Z)` mirror for team 1 and the identity for any other team, but it is
never invoked: `make_simple_move` emits the computed waypoint unchanged for
every player. -/
theorem C3_waypoint_never_mirrored (mapSize team : Int) (ship : Ship) (p : Vec) :
    make_simple_move ship p = UserCommand.MOVE ship.Id p
    ∧ (team = 1 →
        adapt mapSize team p = ⟨mapSize - 2 - p.X, mapSize - 2 - p.Y, mapSize - 2 - p.Z⟩)
    ∧ (team ≠ 1 → adapt mapSize team p = p) := by
  refine ⟨rfl, fun h => ?_, fun h => ?_⟩ <;> simp [adapt, h]

/-- Witness for the amended C3 at concrete inputs: the emitted waypoint, the
team-1 mirror, and the unchanged team-2 waypoint. -/
theorem C3_waypoint_never_mirrored_witness :
    make_simple_move c3ship ⟨2, 3, 4⟩ = UserCommand.MOVE 1 ⟨2, 3, 4⟩
    ∧ adapt 30 1 ⟨2, 3, 4⟩ = ⟨26, 25, 24⟩
    ∧ adapt 30 2 ⟨2, 3, 4⟩ = ⟨2, 3, 4⟩ :=
  ⟨(C3_waypoint_never_mirrored 30 1 c3ship ⟨2, 3, 4⟩).1,
   (C3_waypoint_never_mirrored 30 1 c3ship ⟨2, 3, 4⟩).2.1 rfl,
   (C3_waypoint_never_mirrored 30 2 c3ship ⟨2, 3, 4⟩).2.2 (by decide)⟩

/-- Claim C4: the spec says the branch is a pure function of
`(gun.Radius, best_distance)` — here the radius is 5 and the minimal corner
distance is 8, so the too-far MOVE branch should fire. Because line 452 wrote
the candidate triple into `closest_point[0]`, the ship's processing instead
raises `TypeError` before any branch is selected. -/
theorem C4_branch_selection_crashes :
    processShip 30 ⟨[], []⟩ c4ship [c4opp] = .error .typeError
    ∧ (∃ v1 ∈ c4ship.get_all_points, ∃ v2 ∈ c4opp.get_all_points, (v2 - v1).clen = 8)
    ∧ (∀ v1 ∈ c4ship.get_all_points, ∀ v2 ∈ c4opp.get_all_points, 8 ≤ (v2 - v1).clen)
    ∧ gunsOf c4ship = [⟨"g", 10, 1, 5⟩] := by
  decide

/-- Claim C5: the spec says that at `radius == best_distance` (here both 5)
the ship brakes and attacks. The corner scan crashes with `TypeError` at the
second pair, so no ACCELERATE or ATTACK is emitted at all. -/
theorem C5_at_range_branch_crashes :
    processShip 30 ⟨[], []⟩ c5ship [c5opp] = .error .typeError
    ∧ (∃ v1 ∈ c5ship.get_all_points, ∃ v2 ∈ c5opp.get_all_points, (v2 - v1).clen = 5)
    ∧ (∀ v1 ∈ c5ship.get_all_points, ∀ v2 ∈ c5opp.get_all_points, 5 ≤ (v2 - v1).clen)
    ∧ gunsOf c5ship = [⟨"g", 10, 1, 5⟩] := by
  decide

/-- Claim C6: the spec says that at `radius > best_distance` (radius 10,
minimal corner distance 2) the clamped escape vector drives an ACCELERATE.
The corner scan crashes with `TypeError` first, so the escape logic is never
reached. -/
theorem C6_too_close_branch_crashes :
    processShip 30 ⟨[], []⟩ c6ship [c6opp] = .error .typeError
    ∧ (∃ v1 ∈ c6ship.get_all_points, ∃ v2 ∈ c6opp.get_all_points, (v2 - v1).clen = 2)
    ∧ (∀ v1 ∈ c6ship.get_all_points, ∀ v2 ∈ c6opp.get_all_points, 2 ≤ (v2 - v1).clen)
    ∧ gunsOf c6ship = [⟨"g", 10, 1, 10⟩] := by
  decide

/-- Claim C9: the spec says a gunless ship is processed without error and
yields exactly one MOVE. The corner scan (which runs before the gun check)
raises `TypeError` for this gunless ship with an in-range opponent, so no
MOVE is emitted. -/
theorem C9_gunless_ship_crashes :
    processShip 30 ⟨[], []⟩ c9ship [c9opp] = .error .typeError
    ∧ gunsOf c9ship = [] := by
  decide

/-- Claim C10 counterexample: an engineless (and gunless) ship with a nearby
opponent fails with `TypeError` from the corner scan, not with the claimed
`IndexError` — the scan's crash preempts the `engines[0]` read. -/
theorem C10_counterexample :
    processShip 30 ⟨[], []⟩ c10ship [c10oppNear] = .error .typeError
    ∧ enginesOf c10ship = []
    ∧ PyErr.typeError ≠ PyErr.indexError := by
  decide

/-- `tupLt` never relates a key to itself. -/
theorem tupLt_irrefl (a : Bool × Int) : tupLt a a = false := by
  rcases a with ⟨b, n⟩
  cases b <;> simp [tupLt]

/-- `tupLt` is asymmetric. -/
theorem tupLt_asymm (a b : Bool × Int) (h : tupLt a b = true) : tupLt b a = false := by
  rcases a with ⟨ba, na⟩
  rcases b with ⟨bb, nb⟩
  cases ba <;> cases bb <;> simp_all [tupLt] <;> omega

/-- `tupLt` is transitive. -/
theorem tupLt_trans (a b c : Bool × Int) (h1 : tupLt a b = true) (h2 : tupLt b c = true) :
    tupLt a c = true := by
  rcases a with ⟨ba, na⟩
  rcases b with ⟨bb, nb⟩
  rcases c with ⟨bc, nc⟩
  cases ba <;> cases bb <;> cases bc <;> simp_all [tupLt] <;> omega

/-- On a total strict order, below `b` and not-below-`b` compare strictly. -/
theorem tupLt_cmp (a b c : Bool × Int) (h1 : tupLt a b = true) (h2 : tupLt c b = false) :
    tupLt a c = true := by
  rcases a with ⟨ba, na⟩
  rcases b with ⟨bb, nb⟩
  rcases c with ⟨bc, nc⟩
  cases ba <;> cases bb <;> cases bc <;> simp_all [tupLt] <;> omega

/-- `intLt` never relates a key to itself. -/
theorem intLt_irrefl (a : Int) : intLt a a = false := by
  simp [intLt]

/-- `intLt` is asymmetric. -/
theorem intLt_asymm (a b : Int) (h : intLt a b = true) : intLt b a = false := by
  simp_all [intLt]
  omega

/-- `intLt` is transitive. -/
theorem intLt_trans (a b c : Int) (h1 : intLt a b = true) (h2 : intLt b c = true) :
    intLt a c = true := by
  simp_all [intLt]
  omega

/-- Below `b` and not-below-`b` compare strictly for `intLt`. -/
theorem intLt_cmp (a b c : Int) (h1 : intLt a b = true) (h2 : intLt c b = false) :
    intLt a c = true := by
  simp_all [intLt]
  omega

/-- Characterization of the first-minimum fold: starting from `b`, the result
either is `b` itself with nothing in the list strictly below it, or it is the
element at the first index whose key attains the minimum — strictly below `b`,
strictly below every earlier element, and with no element strictly below it. -/
theorem minFold_spec {α β : Type} (key : α → β) (lt : β → β → Bool)
    (hirr : ∀ a, lt a a = false)
    (hasym : ∀ a b, lt a b = true → lt b a = false)
    (htrans : ∀ a b c, lt a b = true → lt b c = true → lt a c = true)
    (hcmp : ∀ a b c, lt a b = true → lt c b = false → lt a c = true)
    (xs : List α) :
    ∀ b : α,
      (minFold key lt b xs = b ∧ ∀ e ∈ xs, lt (key e) (key b) = false)
      ∨ (∃ i, ∃ hi : i < xs.length,
          minFold key lt b xs = xs.get ⟨i, hi⟩
          ∧ lt (key (xs.get ⟨i, hi⟩)) (key b) = true
          ∧ (∀ j, ∀ hj : j < xs.length, j < i →
              lt (key (xs.get ⟨i, hi⟩)) (key (xs.get ⟨j, hj⟩)) = true)
          ∧ (∀ j, ∀ hj : j < xs.length,
              lt (key (xs.get ⟨j, hj⟩)) (key (xs.get ⟨i, hi⟩)) = false)) := by
  induction xs with
  | nil =>
    intro b
    exact Or.inl ⟨rfl, by simp⟩
  | cons e xs ih =>
    intro b
    by_cases hce : lt (key e) (key b) = true
    · have step : minFold key lt b (e :: xs) = minFold key lt e xs := by
        simp [minFold, hce]
      rcases ih e with ⟨hr, hall⟩ | ⟨i, hi, hr, hlt, hbef, hnone⟩
      · refine Or.inr ⟨0, by simp, ?_, ?_, ?_, ?_⟩
        · rw [step, hr]
          rfl
        · exact hce
        · intro j hj hj0
          omega
        · intro j hj
          match j, hj with
          | 0, _ => exact hirr _
          | j + 1, hj =>
            exact hall _ (xs.get_mem j (by simpa using hj))
      · refine Or.inr ⟨i + 1, by simpa using Nat.succ_lt_succ hi, ?_, ?_, ?_, ?_⟩
        · rw [step, hr]
          rfl
        · exact htrans _ _ _ hlt hce
        · intro j hj hji
          match j, hj with
          | 0, _ => exact hlt
          | j + 1, hj => exact hbef j (by simpa using hj) (by omega)
        · intro j hj
          match j, hj with
          | 0, _ => exact hasym _ _ hlt
          | j + 1, hj => exact hnone j (by simpa using hj)
    · have hce' : lt (key e) (key b) = false := by
        cases h : lt (key e) (key b)
        · rfl
        · exact absurd h hce
      have step : minFold key lt b (e :: xs) = minFold key lt b xs := by
        simp [minFold, hce']
      rcases ih b with ⟨hr, hall⟩ | ⟨i, hi, hr, hlt, hbef, hnone⟩
      · refine Or.inl ⟨by rw [step, hr], ?_⟩
        intro x hx
        rcases List.mem_cons.mp hx with rfl | hx'
        · exact hce'
        · exact hall _ hx'
      · refine Or.inr ⟨i + 1, by simpa using Nat.succ_lt_succ hi, ?_, ?_, ?_, ?_⟩
        · rw [step, hr]
          rfl
        · exact hlt
        · intro j hj hji
          match j, hj with
          | 0, _ => exact hcmp _ _ _ hlt hce'
          | j + 1, hj => exact hbef j (by simpa using hj) (by omega)
        · intro j hj
          match j, hj with
          | 0, _ =>
            show lt (key e) (key (xs.get ⟨i, hi⟩)) = false
            cases h : lt (key e) (key (xs.get ⟨i, hi⟩))
            · rfl
            · exact absurd (htrans _ _ _ h hlt) (by simp [hce'])
          | j + 1, hj => exact hnone j (by simpa using hj)

/-- Characterization of Python's `min(l, key=...)`: the result is in the list,
no element's key is strictly below its key, and it sits at an index strictly
below every earlier element's key (the first minimal element wins ties). -/
theorem pyMinBy_spec {α β : Type} (key : α → β) (lt : β → β → Bool)
    (hirr : ∀ a, lt a a = false)
    (hasym : ∀ a b, lt a b = true → lt b a = false)
    (htrans : ∀ a b c, lt a b = true → lt b c = true → lt a c = true)
    (hcmp : ∀ a b c, lt a b = true → lt c b = false → lt a c = true)
    (l : List α) (r : α) (h : pyMinBy key lt l = some r) :
    r ∈ l ∧ (∀ x ∈ l, lt (key x) (key r) = false)
    ∧ ∃ i, ∃ hi : i < l.length, l.get ⟨i, hi⟩ = r
        ∧ ∀ j, ∀ hj : j < l.length, j < i → lt (key r) (key (l.get ⟨j, hj⟩)) = true := by
  match l with
  | [] => exact absurd h (by simp [pyMinBy])
  | x :: xs =>
    have hr : minFold key lt x xs = r := by
      have := h
      simp only [pyMinBy, Option.some.injEq] at this
      exact this
    rcases minFold_spec key lt hirr hasym htrans hcmp xs x with ⟨h1, h2⟩ | ⟨i, hi, h1, h2, h3, h4⟩
    · have hrx : r = x := by rw [← hr, h1]
      subst hrx
      refine ⟨List.mem_cons_self _ _, ?_, 0, by simp, rfl, ?_⟩
      · intro y hy
        rcases List.mem_cons.mp hy with rfl | hy'
        · exact hirr _
        · exact h2 _ hy'
      · intro j hj hj0
        omega
    · have hrg : xs.get ⟨i, hi⟩ = r := by rw [← hr, h1]
      refine ⟨?_, ?_, i + 1, by simpa using Nat.succ_lt_succ hi, ?_, ?_⟩
      · exact hrg ▸ List.mem_cons_of_mem _ (xs.get_mem i hi)
      · intro y hy
        rcases List.mem_cons.mp hy with rfl | hy'
        · rw [← hrg]
          exact hasym _ _ h2
        · rcases List.mem_iff_get.mp hy' with ⟨⟨j, hj⟩, hget⟩
          rw [← hrg, ← hget]
          exact h4 j hj
      · exact hrg
      · intro j hj hji
        rw [← hrg]
        match j, hj with
        | 0, _ => exact h2
        | j + 1, hj => exact h3 j (by simpa using hj) (by omega)

/-- Writing a key into the `targets` dict makes it readable back. -/
theorem lookupT_dictSet (l : List (Int × Ship)) (k : Int) (v : Ship) :
    lookupT (dictSet l k v) k = some v := by
  induction l with
  | nil => simp [dictSet, lookupT]
  | cons kv rest ih =>
    rcases kv with ⟨k', v'⟩
    by_cases h : k' = k
    · simp [dictSet, lookupT, h]
    · simp [dictSet, lookupT, h, ih]

/-- Claim C7: whenever reassignment fires for an own ship and the opponent
list is nonempty, `assignTarget` succeeds, the stored target is in the
opponent list, it minimizes the Python tuple key `(enemy.Id in taken,
Chebyshev distance)` under the lexicographic order `tupLt`, ties are broken by
the earliest list position (the chosen element is strictly below every earlier
opponent's key), and when any opponent is untaken the chosen one is untaken. -/
theorem C7_reassignment_picks_lex_minimum (st : BotState) (ship : Ship) (opp : List Ship)
    (hne : opp ≠ []) (hre : needsReassign st.targets ship.Id opp = true) :
    ∃ r st2, assignTarget st ship opp = Except.ok (r, st2)
      ∧ r ∈ opp
      ∧ (∀ e ∈ opp, tupLt (check_ships st.taken ship e) (check_ships st.taken ship r) = false)
      ∧ (∃ i, ∃ hi : i < opp.length, opp.get ⟨i, hi⟩ = r
          ∧ ∀ j, ∀ hj : j < opp.length, j < i →
              tupLt (check_ships st.taken ship r) (check_ships st.taken ship (opp.get ⟨j, hj⟩))
                = true)
      ∧ ((∃ e ∈ opp, st.taken.contains e.Id = false) → st.taken.contains r.Id = false) := by
  cases hmin : pyMinBy (check_ships st.taken ship) tupLt opp with
  | none =>
    cases opp with
    | nil => exact absurd rfl hne
    | cons x xs => exact absurd hmin (by simp [pyMinBy])
  | some r =>
    obtain ⟨hmem, hminimal, i, hi, hget, hbef⟩ :=
      pyMinBy_spec (check_ships st.taken ship) tupLt tupLt_irrefl tupLt_asymm tupLt_trans
        tupLt_cmp opp r hmin
    refine ⟨r, ⟨dictSet st.targets ship.Id r, addTaken st.taken r.Id⟩, ?_, hmem, hminimal,
      ⟨i, hi, hget, hbef⟩, ?_⟩
    · simp [assignTarget, hre, hmin, lookupT_dictSet]
    · rintro ⟨e, he, hu⟩
      cases hc : st.taken.contains r.Id
      · rfl
      · have hthis := hminimal e he
        have he1 : check_ships st.taken ship e = (false, (ship.Position - e.Position).clen) := by
          unfold check_ships
          rw [hu]
        have hr1 : check_ships st.taken ship r = (true, (ship.Position - r.Position).clen) := by
          unfold check_ships
          rw [hc]
        rw [he1, hr1] at hthis
        simp [tupLt] at hthis

/-- Witness applying C7 at a concrete state with a nonempty opponent list and
a firing reassignment condition. -/
theorem C7_reassignment_picks_lex_minimum_witness :
    (([c7oppA, c7oppB] : List Ship) ≠ []
      ∧ needsReassign (BotState.mk [] [5]).targets c7ship.Id [c7oppA, c7oppB] = true)
    ∧ (∃ r st2, assignTarget ⟨[], [5]⟩ c7ship [c7oppA, c7oppB] = Except.ok (r, st2)
        ∧ r ∈ [c7oppA, c7oppB]
        ∧ (∀ e ∈ [c7oppA, c7oppB],
            tupLt (check_ships [5] c7ship e) (check_ships [5] c7ship r) = false)
        ∧ (∃ i, ∃ hi : i < ([c7oppA, c7oppB] : List Ship).length,
            ([c7oppA, c7oppB] : List Ship).get ⟨i, hi⟩ = r
            ∧ ∀ j, ∀ hj : j < ([c7oppA, c7oppB] : List Ship).length, j < i →
                tupLt (check_ships [5] c7ship r)
                  (check_ships [5] c7ship (([c7oppA, c7oppB] : List Ship).get ⟨j, hj⟩)) = true)
        ∧ ((∃ e ∈ [c7oppA, c7oppB], ([5] : List Int).contains e.Id = false) →
            ([5] : List Int).contains r.Id = false)) :=
  ⟨⟨by decide, by decide⟩,
   C7_reassignment_picks_lex_minimum ⟨[], [5]⟩ c7ship [c7oppA, c7oppB] (by decide) (by decide)⟩

/-- Claim C10 as amended: `engines[0]` is read before the `if not guns` check,
so processing a ship with no Engine block always fails; the failure is the
claimed `IndexError` exactly when the corner scan returns without raising
(otherwise the scan's own `TypeError` fires first). No gun is required for
this: the statement holds for arbitrary equipment without an engine. -/
theorem C10_engine_read_before_gun_check (mapSize : Int) (st : BotState) (ship : Ship)
    (opp : List Ship) (heng : enginesOf ship = []) :
    (∃ e, processShip mapSize st ship opp = .error e)
    ∧ (∀ tgt st2, assignTarget st ship opp = Except.ok (tgt, st2) →
        ∀ cp0, cornerScan ship.get_all_points tgt.get_all_points mapSize = Except.ok cp0 →
          processShip mapSize st ship opp = .error .indexError) := by
  constructor
  · cases ha : assignTarget st ship opp with
    | error e => exact ⟨e, by simp [processShip, ha]⟩
    | ok p =>
      rcases p with ⟨tgt, st2⟩
      cases hs : cornerScan ship.get_all_points tgt.get_all_points mapSize with
      | error e => exact ⟨e, by simp [processShip, ha, hs]⟩
      | ok cp0 => exact ⟨.indexError, by simp [processShip, ha, hs, heng]⟩
  · intro tgt st2 ha cp0 hs
    simp [processShip, ha, hs, heng]

/-- Witness for the amended C10: the engineless, gunless `c10ship` against the
distant opponent (whose corner scan completes) fails, and fails with
`IndexError` in particular. -/
theorem C10_engine_read_before_gun_check_witness :
    enginesOf c10ship = []
    ∧ (∃ e, processShip 30 ⟨[], []⟩ c10ship [c10oppFar] = .error e)
    ∧ processShip 30 ⟨[], []⟩ c10ship [c10oppFar] = .error .indexError :=
  ⟨by decide,
   (C10_engine_read_before_gun_check 30 ⟨[], []⟩ c10ship [c10oppFar] (by decide)).1,
   (C10_engine_read_before_gun_check 30 ⟨[], []⟩ c10ship [c10oppFar] (by decide)).2
     c10oppFar ⟨[(1, c10oppFar)], [7]⟩ (by decide) (CPBest.int 30) (by decide)⟩

/-- Characterization of the corner scan of `shoot_nearest_enemy`: the tracked
minimum never increases; the accumulator either is untouched or holds a corner
that registered (inside the radius and strictly below the starting minimum);
and the final minimum is at most the distance of every in-radius corner. -/
theorem scan_points_spec (R : Int) (gp : Vec) (pts : List Vec) :
    ∀ m0 : Int, ∀ mv0 : Option Vec,
      (scan_points R gp pts (m0, mv0)).1 ≤ m0
      ∧ (scan_points R gp pts (m0, mv0) = (m0, mv0)
         ∨ ∃ p ∈ pts, (scan_points R gp pts (m0, mv0)).2 = some p
              ∧ (scan_points R gp pts (m0, mv0)).1 = (p - gp).clen
              ∧ R ≥ (p - gp).clen ∧ (p - gp).clen < m0)
      ∧ (∀ q ∈ pts, R ≥ (q - gp).clen → (scan_points R gp pts (m0, mv0)).1 ≤ (q - gp).clen) := by
  induction pts with
  | nil =>
    intro m0 mv0
    refine ⟨le_refl _, Or.inl rfl, ?_⟩
    intro q hq
    simp at hq
  | cons p ps ih =>
    intro m0 mv0
    by_cases hc : R ≥ (p - gp).clen ∧ (p - gp).clen < m0
    · have step : scan_points R gp (p :: ps) (m0, mv0)
          = scan_points R gp ps ((p - gp).clen, some p) := by
        simp [scan_points, hc]
      obtain ⟨ih1, ih2, ih3⟩ := ih ((p - gp).clen) (some p)
      refine ⟨?_, ?_, ?_⟩
      · rw [step]
        exact le_trans ih1 (le_of_lt hc.2)
      · rw [step]
        rcases ih2 with h | ⟨p', hp', h1, h2, h3, h4⟩
        · exact Or.inr ⟨p, List.mem_cons_self _ _, by rw [h], by rw [h], hc.1, hc.2⟩
        · exact Or.inr ⟨p', List.mem_cons_of_mem _ hp', h1, h2, h3, lt_trans h4 hc.2⟩
      · intro q hq hRq
        rw [step]
        rcases List.mem_cons.mp hq with rfl | hq'
        · exact ih1
        · exact ih3 q hq' hRq
    · have step : scan_points R gp (p :: ps) (m0, mv0) = scan_points R gp ps (m0, mv0) := by
        simp [scan_points, hc]
      obtain ⟨ih1, ih2, ih3⟩ := ih m0 mv0
      refine ⟨by rw [step]; exact ih1, ?_, ?_⟩
      · rw [step]
        rcases ih2 with h | ⟨p', hp', h1, h2, h3, h4⟩
        · exact Or.inl h
        · exact Or.inr ⟨p', List.mem_cons_of_mem _ hp', h1, h2, h3, h4⟩
      intro q hq hRq
      rw [step]
      rcases List.mem_cons.mp hq with rfl | hq'
      · have hnlt : ¬ (q - gp).clen < m0 := fun hlt => hc ⟨hRq, hlt⟩
        exact le_trans ih1 (not_lt.mp hnlt)
      · exact ih3 q hq' hRq

/-- An enemy contributes nothing to `available` exactly when none of its
corners is within the gun radius of the firing port (for radii below the
`1000000` sentinel of the scan). -/
theorem enemyEntry_eq_none_iff (R : Int) (ship enemy : Ship) (hR : R < 1000000) :
    enemyEntry R ship enemy = none ↔
      ∀ p ∈ enemy.get_all_points, ¬((p - gun_pos_for ship enemy).clen ≤ R) := by
  obtain ⟨h1, h2, h3⟩ :=
    scan_points_spec R (gun_pos_for ship enemy) enemy.get_all_points 1000000 none
  unfold enemyEntry
  constructor
  · intro h p hp hle
    have hres :
        (scan_points R (gun_pos_for ship enemy) enemy.get_all_points (1000000, none)).1
          < 1000000 :=
      lt_of_le_of_lt (h3 p hp hle) (lt_of_le_of_lt hle hR)
    rcases h2 with hid | ⟨p', hp', e1, e2, e3, e4⟩
    · rw [hid] at hres
      exact absurd hres (by norm_num)
    · rw [if_pos hres, e1] at h
      simp at h
  · intro hall
    rcases h2 with hid | ⟨p, hp, e1, e2, e3, e4⟩
    · rw [hid]
      norm_num
    · exact absurd e3 (hall p hp)

/-- When an enemy does contribute an `available` entry, the entry pairs the
enemy's health with a corner inside the radius whose distance from the firing
port is minimal among the enemy's in-radius corners. -/
theorem enemyEntry_eq_some (R : Int) (ship enemy : Ship) (hp : Int) (v : Vec)
    (h : enemyEntry R ship enemy = some (hp, v)) :
    hp = enemy.Health ∧ v ∈ enemy.get_all_points
    ∧ (v - gun_pos_for ship enemy).clen ≤ R
    ∧ ∀ q ∈ enemy.get_all_points, (q - gun_pos_for ship enemy).clen ≤ R →
        (v - gun_pos_for ship enemy).clen ≤ (q - gun_pos_for ship enemy).clen := by
  obtain ⟨h1, h2, h3⟩ :=
    scan_points_spec R (gun_pos_for ship enemy) enemy.get_all_points 1000000 none
  unfold enemyEntry at h
  by_cases hlt :
      (scan_points R (gun_pos_for ship enemy) enemy.get_all_points (1000000, none)).1
        < 1000000
  · rw [if_pos hlt] at h
    rcases h2 with hid | ⟨p, hpmem, e1, e2, e3, e4⟩
    · rw [hid] at hlt
      exact absurd hlt (by norm_num)
    · rw [e1] at h
      have hpair : (enemy.Health, p) = (hp, v) := by
        simpa using h
      have hhp : hp = enemy.Health := by
        have := congrArg Prod.fst hpair
        simpa using this.symm
      have hv : p = v := by
        have := congrArg Prod.snd hpair
        simpa using this
      subst hv
      refine ⟨hhp, hpmem, e3, ?_⟩
      intro q hq hRq
      rw [← e2]
      exact h3 q hq hRq
  · rw [if_neg hlt] at h
    exact absurd h (by simp)

/-- Claim C8: `shoot_nearest_enemy`. A gunless ship emits nothing. With a
first gun `g` (of radius below the scan's `1000000` sentinel): no command is
emitted exactly when no opponent has a corner within `g.Radius` of its
octant-selected firing port; and any emitted command is a single ATTACK naming
`g`, aimed at a nearest in-radius corner of a reachable opponent of minimal
health among the reachable opponents. -/
theorem C8_shoot_spec (ship : Ship) (opp : List Ship)
    (hR : ∀ g ∈ gunsOf ship, g.Radius < 1000000) :
    (gunsOf ship = [] → shoot_nearest_enemy ship opp = [])
    ∧ ∀ g grest, gunsOf ship = g :: grest →
        ((shoot_nearest_enemy ship opp = []
            ↔ ∀ e ∈ opp, ∀ p ∈ e.get_all_points, ¬((p - gun_pos_for ship e).clen ≤ g.Radius))
         ∧ (shoot_nearest_enemy ship opp = []
            ∨ ∃ e v, e ∈ opp ∧ v ∈ e.get_all_points
                ∧ (v - gun_pos_for ship e).clen ≤ g.Radius
                ∧ (∀ q ∈ e.get_all_points, (q - gun_pos_for ship e).clen ≤ g.Radius →
                    (v - gun_pos_for ship e).clen ≤ (q - gun_pos_for ship e).clen)
                ∧ (∀ e2 ∈ opp, (∃ p ∈ e2.get_all_points,
                      (p - gun_pos_for ship e2).clen ≤ g.Radius) → e.Health ≤ e2.Health)
                ∧ shoot_nearest_enemy ship opp = [UserCommand.ATTACK ship.Id g.Name v])) := by
  constructor
  · intro h
    simp [shoot_nearest_enemy, h]
  · intro g grest hg
    have hgR : g.Radius < 1000000 := hR g (hg ▸ List.mem_cons_self _ _)
    cases hmin : pyMinBy (fun p => p.1) intLt (opp.filterMap (enemyEntry g.Radius ship)) with
    | none =>
      have hempty : opp.filterMap (enemyEntry g.Radius ship) = [] := by
        cases hl : opp.filterMap (enemyEntry g.Radius ship) with
        | nil => rfl
        | cons x xs =>
          rw [hl] at hmin
          exact absurd hmin (by simp [pyMinBy])
      have hshoot : shoot_nearest_enemy ship opp = [] := by
        simp [shoot_nearest_enemy, hg, hmin]
      refine ⟨⟨fun _ => ?_, fun _ => hshoot⟩, Or.inl hshoot⟩
      intro e he p hpmem hple
      have hnone : enemyEntry g.Radius ship e = none :=
        List.filterMap_eq_nil_iff.mp hempty e he
      exact (enemyEntry_eq_none_iff g.Radius ship e hgR).mp hnone p hpmem hple
    | some best =>
      obtain ⟨hmem, hminimal, -⟩ :=
        pyMinBy_spec (fun p => p.1) intLt intLt_irrefl intLt_asymm intLt_trans intLt_cmp
          _ best hmin
      obtain ⟨e, he, hent⟩ := List.mem_filterMap.mp hmem
      rcases best with ⟨bh, bv⟩
      obtain ⟨hbh, hbv_mem, hbv_le, hbv_min⟩ := enemyEntry_eq_some g.Radius ship e bh bv hent
      have hshoot :
          shoot_nearest_enemy ship opp = [UserCommand.ATTACK ship.Id g.Name bv] := by
        simp [shoot_nearest_enemy, hg, hmin]
      refine ⟨⟨fun h0 => ?_, fun hall => ?_⟩, ?_⟩
      · rw [hshoot] at h0
        exact absurd h0 (by simp)
      · exact absurd hbv_le (hall e he bv hbv_mem)
      · refine Or.inr ⟨e, bv, he, hbv_mem, hbv_le, hbv_min, ?_, hshoot⟩
        rintro e2 he2 ⟨p, hpmem, hple⟩
        have hne : enemyEntry g.Radius ship e2 ≠ none := by
          rw [Ne, enemyEntry_eq_none_iff g.Radius ship e2 hgR]
          intro hall
          exact hall p hpmem hple
        cases hv2 : enemyEntry g.Radius ship e2 with
        | none => exact absurd hv2 hne
        | some hv =>
          rcases hv with ⟨h2h, h2v⟩
          obtain ⟨h21, -, -, -⟩ := enemyEntry_eq_some g.Radius ship e2 h2h h2v hv2
          have hin : (h2h, h2v) ∈ opp.filterMap (enemyEntry g.Radius ship) :=
            List.mem_filterMap.mpr ⟨e2, he2, hv2⟩
          have hle := hminimal (h2h, h2v) hin
          have hle2 : ¬ h2h < bh := by simpa [intLt] using hle
          rw [hbh] at hle2
          rw [← h21]
          omega

/-- Claim C8 counterexample: taking "within the gun's Radius" literally fails
at the scan's sentinel. With `Radius = 1000000`, the opponent corner
`(1000000, 0, 0)` is exactly at distance `1000000` from the firing port
`(0, 0, 1)` — within the radius — yet `shoot_nearest_enemy` emits no ATTACK,
because the scan only registers corners strictly closer than the starting
minimum `1000000`. -/
theorem C8_sentinel_counterexample :
    shoot_nearest_enemy c8xship [c8xopp] = []
    ∧ gunsOf c8xship = [⟨"g", 10, 1, 1000000⟩]
    ∧ (∃ p ∈ c8xopp.get_all_points,
        (p - gun_pos_for c8xship c8xopp).clen ≤ (1000000 : Int)) := by
  decide

/-- Witness for the amended C8: the radius-5 gun of `c8ship` is below the
sentinel, `c8ship` has a first gun, and the no-fire iff holds at this concrete
input. -/
theorem C8_shoot_spec_witness :
    (∀ g ∈ gunsOf c8ship, g.Radius < 1000000)
    ∧ (shoot_nearest_enemy c8ship [c8oppA, c8oppB] = []
        ↔ ∀ e ∈ [c8oppA, c8oppB], ∀ p ∈ e.get_all_points,
            ¬((p - gun_pos_for c8ship e).clen ≤ (GunBlock.mk "g" 10 1 5).Radius)) :=
  ⟨by decide,
   ((C8_shoot_spec c8ship [c8oppA, c8oppB] (by decide)).2 ⟨"g", 10, 1, 5⟩ [] (by decide)).1⟩
